import Mathlib

/-
Verification of the deterministic core of the two-layer agentic knowledge
system: the markdown chunker (`parse_markdown_document`), the directory
store (`load_document`, Python `dict.update` as the merge), the routing
validation and dispatch of `process_user_query`, the combined-context
assembly of `query_agent_r_multiple`, and `synthesize_response`.

Modelling conventions:
- Strings are Lean `String`s; the character-level operations the Python code
  uses (`str.strip`, `str.split`, `re.split` with a `^`-anchored literal
  pattern under `re.MULTILINE`, single-character `str.replace`) are defined
  below on `List Char` so that every definition evaluates by kernel
  reduction.
- The external LLM collaborators are parameters: the reference agent is a
  function from the request actually issued (`AgentCall`) to its reply, and
  the synthesis collaborator is a function returning `Option String`
  (`none` models an exception at the call site).
- File stores (the chunks directory) are association lists from path to
  content; a write prepends, a read takes the most recent write.
- `json.loads` output is modelled by `JVal`: atoms and flat arrays of atoms,
  the nesting depth the routing code ever inspects.  Python `repr` of a
  string is modelled without quote/backslash escaping, which this
  repository's section ids never contain.
-/

/-- Python whitespace test used by `str.strip` (the ASCII whitespace set). -/
def pySpace (c : Char) : Bool :=
  c = ' ' || c = '\t' || c = '\n' || c = '\r' || c = Char.ofNat 11 || c = Char.ofNat 12

/-- Characters of a string with leading and trailing whitespace removed. -/
def pyStripChars (l : List Char) : List Char :=
  ((l.dropWhile pySpace).reverse.dropWhile pySpace).reverse

/-- Python `str.strip()`. -/
def pyStrip (s : String) : String := String.mk (pyStripChars s.data)

/-- Split a character list at every newline (Python `str.split("\n")`). -/
def splitCharsNL : List Char → List (List Char)
  | [] => [[]]
  | c :: cs =>
    match splitCharsNL cs with
    | [] => [[c]]
    | f :: fs => if c = '\n' then [] :: f :: fs else (c :: f) :: fs

/-- The lines of a string, splitting at every newline. -/
def linesOf (s : String) : List String := (splitCharsNL s.data).map String.mk

/-- Boolean prefix test on character lists. -/
def charsBegins : List Char → List Char → Bool
  | [], _ => true
  | _ :: _, [] => false
  | a :: as, b :: bs => a = b && charsBegins as bs

/-- Whether `s` starts with `m`. -/
def strBegins (m s : String) : Bool := charsBegins m.data s.data

/-- Remove the first `n` characters of a string. -/
def strDropChars (s : String) (n : Nat) : String := String.mk (s.data.drop n)

/-- Helper for the multiline split: the lines before the first marker line,
and, for each marker line, the list of lines of the fragment it starts (the
marker removed from its first line). -/
def splitFragsAux (marker : String) : List String → List String × List (List String)
  | [] => ([], [])
  | l :: rest =>
    let r := splitFragsAux marker rest
    if strBegins marker l then ([], (strDropChars l marker.data.length :: r.1) :: r.2)
    else (l :: r.1, r.2)

/-- Render a fragment that is followed by another heading: every line keeps its
trailing newline, because the newline preceding the next heading line belongs
to this fragment in `re.split`. -/
def renderMid (ls : List String) : String := String.join (ls.map (fun l => l ++ "\n"))

/-- Render the final fragment: its lines joined by newlines. -/
def renderLast (ls : List String) : String := String.intercalate "\n" ls

/-- Render the fragments that start at a heading line. -/
def renderTail : List (List String) → List String
  | [] => []
  | [f] => [renderLast f]
  | f :: fs => renderMid f :: renderTail fs

/-- Python `re.split("^" + marker, content, flags=re.MULTILINE)` for a literal
marker without newlines: fragment 0 is the text before the first match, and
each later fragment is the text following one marker occurrence, the marker
itself removed. -/
def pyMultilineSplit (marker : String) (content : String) : List String :=
  let r := splitFragsAux marker (linesOf content)
  match r.2 with
  | [] => [renderLast r.1]
  | f :: fs => renderMid r.1 :: renderTail (f :: fs)

/-- Python `s.split("\n", 1)`: the first line, and the untouched remainder when
the string holds a newline. -/
def splitFirstLine (s : String) : String × Option String :=
  match linesOf s with
  | [] => (s, none)
  | [x] => (x, none)
  | x :: rest => (x, some (String.intercalate "\n" rest))

/-- One chunk produced by `parse_markdown_document`: the directory entry's id
and description, and the body text written to the chunk file. -/
structure Entry where
  section_id : String
  description : String
  body : String
deriving DecidableEq

/-- Single-character Python `str.replace` is a character map. -/
def replaceChar (a b : Char) (s : String) : String :=
  String.mk (s.data.map (fun c => if c = a then b else c))

/-- `file_prefix = Path(file_path).stem.replace(' ', '_').replace('-', '_')`,
taking the stem (the source name) as the input. -/
def file_prefix_of (file_stem : String) : String :=
  replaceChar '-' '_' (replaceChar ' ' '_' file_stem)

def CHUNKS_DIR : String := "chunks"

/-- `chunk_file = f"{CHUNKS_DIR}/{section_id}.txt"`. -/
def chunk_file_of (section_id : String) : String := CHUNKS_DIR ++ "/" ++ section_id ++ ".txt"

/-- The H1 pass of `parse_markdown_document` over the fragments of the H1
split: whitespace-only fragments and the fragment before the first heading are
skipped; fragment number `idx` becomes the chunk `<pfx>_chapter_<idx>` whose
description is the stripped heading line and whose body is the heading marker,
the stripped heading and the remaining text, stripped as written to disk. -/
def parseH1Frags (pfx : String) (frags : List String) : List Entry :=
  frags.enum.filterMap (fun p =>
    if pyStrip p.2 = "" then none
    else if p.1 = 0 then none
    else
      let t := pyStrip (splitFirstLine p.2).1
      some { section_id := pfx ++ "_chapter_" ++ toString p.1
             description := t
             body := pyStrip ("# " ++ t ++ "\n" ++ ((splitFirstLine p.2).2).getD "") })

def sections_per_chunk : Nat := 2

/-- Description of a flushed full batch in the H2 fallback: the single title,
or `"<first> and <last>"`. -/
def flushDescription (titles : List String) : String :=
  if titles.length = 1 then titles.headD ""
  else titles.headD "" ++ " and " ++ titles.getLastD ""

/-- Description of the trailing partial batch in the H2 fallback: the single
title, or `"<first> and others"`. -/
def finalDescription (titles : List String) : String :=
  if titles.length = 1 then titles.headD ""
  else titles.headD "" ++ " and others"

/-- The H2 grouping loop of `parse_markdown_document`: `cnt` models
`len(directory_entries)`, `secs` and `titles` the pending batch accumulators;
whitespace-only fragments are skipped, a batch is flushed as one chunk when it
reaches `sections_per_chunk` sections, and a pending batch left at the end is
flushed with `finalDescription`. -/
def parseH2Go (pfx : String) : Nat → List String → List String → List String → List Entry
  | cnt, secs, titles, [] =>
    if secs.isEmpty then []
    else [{ section_id := pfx ++ "_group_" ++ toString (cnt + 1)
            description := finalDescription titles
            body := pyStrip (String.intercalate "\n\n" secs) }]
  | cnt, secs, titles, frag :: rest =>
    if pyStrip frag = "" then parseH2Go pfx cnt secs titles rest
    else
      let t := pyStrip (splitFirstLine frag).1
      let secs2 := secs ++ ["## " ++ t ++ "\n" ++ ((splitFirstLine frag).2).getD ""]
      let titles2 := titles ++ [t]
      if sections_per_chunk ≤ secs2.length then
        { section_id := pfx ++ "_group_" ++ toString (cnt + 1)
          description := flushDescription titles2
          body := pyStrip (String.intercalate "\n\n" secs2) } :: parseH2Go pfx (cnt + 1) [] [] rest
      else parseH2Go pfx cnt secs2 titles2 rest

/-- `parse_markdown_document`, with the document content in place of the file
path (the stem names the source): the H1 pass, and when it produced no chunk,
the H2 grouping fallback over the same content. -/
def parse_markdown_document (file_stem content : String) : List Entry :=
  let pfx := file_prefix_of file_stem
  let h1 := parseH1Frags pfx (pyMultilineSplit "# " content)
  if h1.isEmpty then parseH2Go pfx 0 [] [] ((pyMultilineSplit "## " content).drop 1)
  else h1

/-- A directory value: `{"description": ..., "chunk_file": ...}`. -/
structure DirEntry where
  description : String
  chunk_file : String
deriving DecidableEq

/-- First-match association-list lookup (Python `d[k]` / `k in d` on a dict,
whose keys are unique; on lists with repeated keys this is the first
occurrence). -/
def alook {α : Type} (k : String) : List (String × α) → Option α
  | [] => none
  | p :: rest => if p.1 = k then some p.2 else alook k rest

/-- One key assignment `d[k] = v` on a Python dict modelled as an
insertion-ordered association list: an existing key keeps its position and
takes the new value, a new key is appended at the end. -/
def dictInsert {α : Type} (m : List (String × α)) (k : String) (v : α) : List (String × α) :=
  if (alook k m).isSome then m.map (fun p => if p.1 = k then (k, v) else p)
  else m ++ [(k, v)]

/-- Python `base.update(incoming)`: the directory merge performed by
`load_document` and `build_knowledge_directory`. -/
def pyUpdate {α : Type} (m n : List (String × α)) : List (String × α) :=
  n.foldl (fun acc p => dictInsert acc p.1 p.2) m

/-- Strict left-biased choice on options. -/
def oelse {α : Type} : Option α → Option α → Option α
  | some v, _ => some v
  | none, b => b

/-- The value of the last occurrence of key `k` in an association list. -/
def lastOcc {α : Type} (k : String) : List (String × α) → Option α
  | [] => none
  | p :: rest => oelse (lastOcc k rest) (if p.1 = k then some p.2 else none)

/-- The directory entries the chunker stores for its chunks. -/
def dirEntriesOf (es : List Entry) : List (String × DirEntry) :=
  es.map (fun e =>
    (e.section_id, { description := e.description, chunk_file := chunk_file_of e.section_id }))

/-- `load_document`: parse, and when at least one chunk was produced, merge the
new entries into the stored directory and save; with zero chunks return
`False` with the store untouched. -/
def load_document (file_stem content : String) (stored : List (String × DirEntry)) :
    Bool × List (String × DirEntry) :=
  let es := parse_markdown_document file_stem content
  if es.isEmpty then (false, stored)
  else (true, pyUpdate stored (dirEntriesOf es))

/-- A plain-text file store: a write prepends, so a read returns the most
recent write (`open(path, "w")` overwrites the whole file). -/
def fsWrite (fs : List (String × String)) (path text : String) : List (String × String) :=
  (path, text) :: fs

/-- The chunk-file writes one chunker run performs, in order. -/
def writeChunks (es : List Entry) (fs : List (String × String)) : List (String × String) :=
  es.foldl (fun a e => fsWrite a (chunk_file_of e.section_id) e.body) fs

/-- One chunker run over a document as `load_document` performs it: parse,
write every chunk body to its chunk file, and (when at least one chunk was
produced) merge the new entries into the directory. -/
def chunkRun (file_stem content : String)
    (st : List (String × DirEntry) × List (String × String)) :
    List (String × DirEntry) × List (String × String) :=
  let es := parse_markdown_document file_stem content
  let fs2 := writeChunks es st.2
  if es.isEmpty then (st.1, fs2) else (pyUpdate st.1 (dirEntriesOf es), fs2)

/-- Atomic values of the decision object `json.loads` returns. -/
inductive JAtom where
  | anull
  | abool (b : Bool)
  | anum (n : Int)
  | astr (s : String)
deriving DecidableEq

/-- Values of the gatekeeper's decision object, to the nesting depth the
routing code ever inspects: atoms and flat arrays of atoms. -/
inductive JVal where
  | atom (a : JAtom)
  | arr (xs : List JAtom)
deriving DecidableEq

/-- Python truthiness of a decision value (`if not x`). -/
def pyTruthy : JVal → Bool
  | .atom .anull => false
  | .atom (.abool b) => b
  | .atom (.anum n) => n != 0
  | .atom (.astr s) => s != ""
  | .arr xs => !xs.isEmpty

/-- Python `repr` of an atom as `str(list)` prints it (string quoting without
escape sequences, which the section ids this code formats never need). -/
def pyReprAtom : JAtom → String
  | .anull => "None"
  | .abool true => "True"
  | .abool false => "False"
  | .anum n => toString n
  | .astr s => "'" ++ s ++ "'"

/-- Python `str` of a list of atoms, as the f-string formats `missing_scopes`. -/
def pyReprAtomList (xs : List JAtom) : String :=
  "[" ++ String.intercalate ", " (xs.map pyReprAtom) ++ "]"

/-- Directory membership/lookup for a raw scope element: only a string can be
a key of the (string-keyed) directory dict. -/
def atomKeyLookup (dir : List (String × DirEntry)) : JAtom → Option DirEntry
  | .astr s => alook s dir
  | _ => none

/-- One request issued to the reference collaborator: the context text that is
sent (one chunk body, or the delimited concatenation) and the `sub_query`
value interpolated into the prompt. -/
inductive AgentCall where
  | single (chunk_text : String) (sub_query : JVal)
  | multi (combined_chunks : String) (sub_query : JVal)
deriving DecidableEq

/-- The description scan of `query_agent_r_multiple`: the first directory
entry whose `chunk_file` equals this chunk file, else `"Unknown Section"`. -/
def find_section_desc (dir : List (String × DirEntry)) (cf : String) : String :=
  match dir.find? (fun p => p.2.chunk_file == cf) with
  | some p => p.2.description
  | none => "Unknown Section"

/-- The combined-context loop of `query_agent_r_multiple` starting at section
number `i`: a labelled block per readable chunk file, an inline error marker
per unreadable one. -/
def combineFrom (fs : List (String × String)) (dir : List (String × DirEntry)) :
    Nat → List String → String
  | _, [] => ""
  | i, cf :: rest =>
    (match alook cf fs with
     | some content =>
       "\n--- REFERENCE SECTION " ++ toString i ++ ": " ++ find_section_desc dir cf ++ " ---\n"
         ++ content ++ "\n"
     | none => "\n--- ERROR: Could not load " ++ cf ++ " ---\n")
      ++ combineFrom fs dir (i + 1) rest

/-- `query_agent_r_single`: read the one chunk (a missing file is reported
without any collaborator call), issue the reference request, strip the reply.
Returns the reply together with the requests issued. -/
def query_agent_r_single (fs : List (String × String)) (agentR : AgentCall → String)
    (chunk_file : String) (sub_query : JVal) : String × List AgentCall :=
  match alook chunk_file fs with
  | none => ("Error: Chunk file '" ++ chunk_file ++ "' not found.", [])
  | some text => (pyStrip (agentR (.single text sub_query)), [.single text sub_query])

/-- `query_agent_r_multiple`: assemble the combined context over the chunk
files in the given order and issue one reference request with it. -/
def query_agent_r_multiple (fs : List (String × String)) (agentR : AgentCall → String)
    (dir : List (String × DirEntry)) (chunk_files : List String) (sub_query : JVal) :
    String × List AgentCall :=
  let combined := combineFrom fs dir 1 chunk_files
  (pyStrip (agentR (.multi combined sub_query)), [.multi combined sub_query])

/-- `synthesize_response`: ask the synthesis collaborator (`none` models an
exception from the call) and fall back to the raw reference reply. -/
def synthesize_response (synth : String → String → Option String)
    (original_query agent_r_response : String) : String :=
  match synth original_query agent_r_response with
  | some content => pyStrip content
  | none => agent_r_response

def answer_default_reply : String := "I couldn't generate a proper response."

def error_reply : String := "I encountered an error processing your query. Please try rephrasing it."

def scope_format_reply : String :=
  "I encountered an error with the scope format. Please try rephrasing your query."

/-- The rejection message naming the missing scope ids, as the f-string
formats the Python list `missing_scopes`. -/
def missing_scope_reply (missing : List JAtom) : String :=
  "I wanted to check my reference material for " ++ pyReprAtomList missing
    ++ ", but those sections don't exist in my knowledge base."

/-- `scope_list` normalization: a single string id becomes a one-element list,
a list is taken as is, anything else is the scope-format error (`none`). -/
def scope_list_of : Option JVal → Option (List JAtom)
  | some (JVal.atom (JAtom.astr s)) => some [JAtom.astr s]
  | some (JVal.arr xs) => some xs
  | _ => none

def fallbackDirEntry : DirEntry := { description := "", chunk_file := "" }

/-- The decision processing of `process_user_query` after Agent A replied
(lines 522-578 of the source): error passthrough, the direct-answer branch,
scope normalization and validation against the directory, single- or
multi-chunk dispatch, and synthesis.  Returns the reply value and the list of
reference requests issued. -/
def process_decision (dir : List (String × DirEntry)) (fs : List (String × String))
    (agentR : AgentCall → String) (synth : String → String → Option String)
    (user_query : String) (decision : List (String × JVal)) : JVal × List AgentCall :=
  if (alook "error" decision).isSome then
    (JVal.atom (JAtom.astr error_reply), [])
  else if !pyTruthy ((alook "needs_reference" decision).getD (JVal.atom (JAtom.abool false))) then
    ((alook "answer" decision).getD (JVal.atom (JAtom.astr answer_default_reply)), [])
  else
    let sub_query := (alook "sub_query" decision).getD (JVal.atom JAtom.anull)
    match scope_list_of (alook "scope" decision) with
    | none => (JVal.atom (JAtom.astr scope_format_reply), [])
    | some scope_list =>
      let missing := scope_list.filter (fun a => (atomKeyLookup dir a).isNone)
      if !missing.isEmpty then
        (JVal.atom (JAtom.astr (missing_scope_reply missing)), [])
      else if scope_list.length = 1 then
        let e := (atomKeyLookup dir (scope_list.headD JAtom.anull)).getD fallbackDirEntry
        let r := query_agent_r_single fs agentR e.chunk_file sub_query
        (JVal.atom (JAtom.astr (synthesize_response synth user_query r.1)), r.2)
      else
        let files := scope_list.map (fun a => ((atomKeyLookup dir a).getD fallbackDirEntry).chunk_file)
        let r := query_agent_r_multiple fs agentR dir files sub_query
        (JVal.atom (JAtom.astr (synthesize_response synth user_query r.1)), r.2)

/-- Claim C1 as stated (spec side): every fragment after the first becomes
exactly one chunk, its description the fragment's first line with the heading
marker removed, its body the full fragment verbatim (marker restored), its id
`<pfx>_chapter_<position>` with `position` the fragment's 1-based index. -/
def spec_chapter_chunks (pfx : String) (content : String) : List Entry :=
  ((pyMultilineSplit "# " content).drop 1).enum.map (fun p =>
    { section_id := pfx ++ "_chapter_" ++ toString (p.1 + 1)
      description := (splitFirstLine p.2).1
      body := "# " ++ p.2 })

/-- Claim C1 amended (spec side): whitespace-only heading fragments are also
discarded (still consuming their positional index); the description is the
fragment's first line with the marker removed and surrounding whitespace
stripped; the body is the marker, the stripped heading line and the remaining
lines, stripped of surrounding whitespace as written to disk. -/
def amended_chapter_chunks (pfx : String) (content : String) : List Entry :=
  ((pyMultilineSplit "# " content).enum.filter
      (fun p => !decide (p.1 = 0) && !decide (pyStrip p.2 = ""))).map (fun p =>
    { section_id := pfx ++ "_chapter_" ++ toString p.1
      description := pyStrip (splitFirstLine p.2).1
      body := pyStrip ("# " ++ pyStrip (splitFirstLine p.2).1 ++ "\n"
                         ++ ((splitFirstLine p.2).2).getD "") })

/-- Whether the document contains a top-level heading, i.e. a line beginning
with `"# "` (the anchored pattern the H1 split matches). -/
def has_h1 (content : String) : Bool := (linesOf content).any (fun l => strBegins "# " l)

/-- Title and rendered section text of one H2 fragment: the stripped heading
line, and the fragment with the marker restored. -/
def h2SecOf (frag : String) : String × String :=
  (pyStrip (splitFirstLine frag).1,
   "## " ++ pyStrip (splitFirstLine frag).1 ++ "\n" ++ ((splitFirstLine frag).2).getD "")

/-- The headings the fallback retains, in order: every H2 fragment that is not
whitespace-only, as (title, section text). -/
def keptPairs (frags : List String) : List (String × String) :=
  frags.filterMap (fun f => if pyStrip f = "" then none else some (h2SecOf f))

/-- Claim C2's description rule: the single title when the batch has exactly
one heading; `"A and B"` for a batch of the target size; `"A and others"` for
a final partial batch with more than one title but fewer than the target. -/
def spec_group_desc (isFinal : Bool) (titles : List String) : String :=
  if titles.length = 1 then titles.headD ""
  else if isFinal && titles.length < sections_per_chunk then titles.headD "" ++ " and others"
  else titles.headD "" ++ " and " ++ titles.getLastD ""

/-- Claim C2 (spec side): group the retained headings into consecutive batches
of the fixed size 2, each batch one chunk whose id is
`<pfx>_group_<made + 1>` with `made` the running count of chunks produced so
far, whose description follows `spec_group_desc`, and whose body joins the
batch's sections; a trailing partial batch is flushed, never discarded. -/
def spec_fallback_chunks (pfx : String) : Nat → List (String × String) → List Entry
  | _, [] => []
  | made, [p] =>
    [{ section_id := pfx ++ "_group_" ++ toString (made + 1)
       description := spec_group_desc true [p.1]
       body := pyStrip (String.intercalate "\n\n" [p.2]) }]
  | made, p :: q :: rest =>
    { section_id := pfx ++ "_group_" ++ toString (made + 1)
      description := spec_group_desc rest.isEmpty [p.1, q.1]
      body := pyStrip (String.intercalate "\n\n" [p.2, q.2]) }
      :: spec_fallback_chunks pfx (made + 1) rest

/-- Claim C3 (spec side): the combined context over `scope` in scope order,
each chunk body preceded by a delimiter line carrying that section's own
description. -/
def spec_ordered_context (desc body : String → String) : Nat → List String → String
  | _, [] => ""
  | i, id :: rest =>
    "\n--- REFERENCE SECTION " ++ toString i ++ ": " ++ desc id ++ " ---\n" ++ body id ++ "\n"
      ++ spec_ordered_context desc body (i + 1) rest

/-- The last write a chunker run performs at file `k`, if any. -/
def lastWrite (k : String) : List Entry → Option String
  | [] => none
  | e :: es =>
    oelse (lastWrite k es) (if chunk_file_of e.section_id = k then some e.body else none)

/-- A well-formed directory: unique ids, and every entry's chunk file is the
one derived from its id (as the chunker stores them). -/
def dirWF (dir : List (String × DirEntry)) : Prop :=
  (dir.map Prod.fst).Nodup ∧ ∀ p ∈ dir, p.2.chunk_file = chunk_file_of p.1

/-- A reference collaborator that answers every request with the empty string
(used for concrete instances). -/
def nullAgentR : AgentCall → String := fun _ => ""

/-- A synthesis collaborator whose call always fails. -/
def nullSynth : String → String → Option String := fun _ _ => none

def sampleDir : List (String × DirEntry) :=
  [("doc_chapter_1", { description := "Overview", chunk_file := "chunks/doc_chapter_1.txt" }),
   ("doc_chapter_2", { description := "Specs", chunk_file := "chunks/doc_chapter_2.txt" })]

def sampleFs : List (String × String) :=
  [("chunks/doc_chapter_1.txt", "# Overview\nov body"),
   ("chunks/doc_chapter_2.txt", "# Specs\nsp body")]

def mergeA : List (String × DirEntry) :=
  [("p_chapter_1", { description := "P", chunk_file := "chunks/p_chapter_1.txt" })]

def mergeB : List (String × DirEntry) :=
  [("q_chapter_1", { description := "Q", chunk_file := "chunks/q_chapter_1.txt" })]

def mergeN : List (String × DirEntry) :=
  [("doc_chapter_1", { description := "New", chunk_file := "chunks/doc_chapter_1.txt" }),
   ("doc_chapter_3", { description := "Third", chunk_file := "chunks/doc_chapter_3.txt" })]

def scenarioDesc : String → String :=
  fun id => if id = "doc_chapter_2" then "Specs" else "Overview"

def scenarioBody : String → String :=
  fun id => if id = "doc_chapter_2" then "# Specs\nsp body" else "# Overview\nov body"

def brokenFs : List (String × String) :=
  [("chunks/doc_chapter_1.txt", "# Overview\nov body"),
   ("chunks/doc_chapter_3.txt", "# Extra\nex body")]

/-! Lemmas about the association-list model of Python dicts. -/

theorem oelse_idem {α : Type} (a b : Option α) : oelse a (oelse a b) = oelse a b := by
  cases a <;> simp [oelse]

theorem alook_append {α : Type} (k : String) (m n : List (String × α)) :
    alook k (m ++ n) = oelse (alook k m) (alook k n) := by
  induction m with
  | nil => simp [alook, oelse]
  | cons p m ih =>
    by_cases h : p.1 = k <;> simp [alook, h, oelse, ih]

theorem alook_map_replace {α : Type} (m : List (String × α)) (k k' : String) (v : α)
    (h : k' ≠ k) :
    alook k' (m.map (fun p => if p.1 = k then (k, v) else p)) = alook k' m := by
  induction m with
  | nil => simp [alook]
  | cons p m ih =>
    by_cases hp : p.1 = k
    · simp [alook, hp, Ne.symm h, ih]
    · by_cases hk : p.1 = k' <;> simp [alook, hp, hk, h, ih]

theorem alook_dictInsert_self {α : Type} (m : List (String × α)) (k : String) (v : α) :
    alook k (dictInsert m k v) = some v := by
  induction m with
  | nil => simp [dictInsert, alook]
  | cons p m ih =>
    by_cases hp : p.1 = k
    · simp [dictInsert, alook, hp]
    · by_cases hm : (alook k m).isSome
      · simp only [dictInsert, alook, hp, if_neg hp, hm, if_true] at ih ⊢
        simpa [alook, hp, hm] using ih
      · simp only [dictInsert, alook, hp, hm] at ih ⊢
        simpa [alook, hp, hm] using ih

theorem alook_dictInsert_other {α : Type} (m : List (String × α)) (k k' : String) (v : α)
    (h : k' ≠ k) : alook k' (dictInsert m k v) = alook k' m := by
  unfold dictInsert
  by_cases hm : (alook k m).isSome
  · simp [hm, alook_map_replace m k k' v h]
  · simp [hm, alook_append, alook, Ne.symm h, oelse]
    cases halt : alook k' m <;> simp [oelse]

theorem alook_pyUpdate {α : Type} (n m : List (String × α)) (k : String) :
    alook k (pyUpdate m n) = oelse (lastOcc k n) (alook k m) := by
  induction n generalizing m with
  | nil => simp [pyUpdate, lastOcc, oelse]
  | cons p n ih =>
    show alook k (pyUpdate (dictInsert m p.1 p.2) n) = _
    rw [ih]
    cases hl : lastOcc k n with
    | some v => simp [lastOcc, hl, oelse]
    | none =>
      simp only [lastOcc, hl, oelse]
      by_cases hp : p.1 = k
      · subst hp
        simp [alook_dictInsert_self, oelse]
      · simp [hp, alook_dictInsert_other m p.1 k p.2 (Ne.symm hp), oelse]

theorem alook_eq_none_of_not_mem {α : Type} (m : List (String × α)) (k : String)
    (h : k ∉ m.map Prod.fst) : alook k m = none := by
  induction m with
  | nil => rfl
  | cons p m ih =>
    simp only [List.map_cons, List.mem_cons] at h
    push_neg at h
    simp [alook, Ne.symm h.1, ih h.2]

theorem lastOcc_eq_none_of_not_mem {α : Type} (m : List (String × α)) (k : String)
    (h : k ∉ m.map Prod.fst) : lastOcc k m = none := by
  induction m with
  | nil => rfl
  | cons p m ih =>
    simp only [List.map_cons, List.mem_cons] at h
    push_neg at h
    simp [lastOcc, Ne.symm h.1, ih h.2, oelse]

theorem lastOcc_eq_alook {α : Type} (m : List (String × α)) (k : String)
    (h : (m.map Prod.fst).Nodup) : lastOcc k m = alook k m := by
  induction m with
  | nil => rfl
  | cons p m ih =>
    simp only [List.map_cons, List.nodup_cons] at h
    by_cases hp : p.1 = k
    · subst hp
      rw [lastOcc, lastOcc_eq_none_of_not_mem m p.1 h.1]
      simp [alook, oelse]
    · rw [lastOcc, ih h.2, alook, if_neg hp]
      cases ha : alook k m <;> simp [oelse, hp]

/-- Claim C8: directory merge (Python `dict.update`, the merge of
`load_document` and `build_knowledge_directory`) is the key-wise union of base
and incoming in which the incoming entry wins on every id collision; for
directories with disjoint id sets the merge is commutative as a mapping, and
for overlapping ids the entry of the most recently merged source is retained. -/
theorem directory_merge_union (m n a b : List (String × DirEntry))
    (hn : (n.map Prod.fst).Nodup)
    (ha : (a.map Prod.fst).Nodup) (hb : (b.map Prod.fst).Nodup)
    (hdisj : ∀ k ∈ a.map Prod.fst, k ∉ b.map Prod.fst) :
    (∀ k, alook k (pyUpdate m n) = oelse (alook k n) (alook k m)) ∧
    (∀ k, alook k (pyUpdate a b) = alook k (pyUpdate b a)) := by
  constructor
  · intro k
    rw [alook_pyUpdate, lastOcc_eq_alook n k hn]
  · intro k
    rw [alook_pyUpdate, alook_pyUpdate, lastOcc_eq_alook b k hb, lastOcc_eq_alook a k ha]
    by_cases hka : k ∈ a.map Prod.fst
    · rw [alook_eq_none_of_not_mem b k (hdisj k hka)]
      cases h : alook k a <;> simp [oelse]
    · rw [alook_eq_none_of_not_mem a k hka]
      cases h : alook k b <;> simp [oelse]

/-- Witness for C8 at concrete directories: the overwritten id, a fresh id, and
commutativity of a disjoint merge at both ids. -/
theorem directory_merge_union_witness :
    (alook "doc_chapter_1" (pyUpdate sampleDir mergeN) =
       oelse (alook "doc_chapter_1" mergeN) (alook "doc_chapter_1" sampleDir)) ∧
    (alook "doc_chapter_3" (pyUpdate sampleDir mergeN) =
       oelse (alook "doc_chapter_3" mergeN) (alook "doc_chapter_3" sampleDir)) ∧
    (alook "p_chapter_1" (pyUpdate mergeA mergeB) =
       alook "p_chapter_1" (pyUpdate mergeB mergeA)) ∧
    (alook "q_chapter_1" (pyUpdate mergeA mergeB) =
       alook "q_chapter_1" (pyUpdate mergeB mergeA)) :=
  ⟨(directory_merge_union sampleDir mergeN mergeA mergeB (by decide) (by decide) (by decide)
      (by decide)).1 "doc_chapter_1",
   (directory_merge_union sampleDir mergeN mergeA mergeB (by decide) (by decide) (by decide)
      (by decide)).1 "doc_chapter_3",
   (directory_merge_union sampleDir mergeN mergeA mergeB (by decide) (by decide) (by decide)
      (by decide)).2 "p_chapter_1",
   (directory_merge_union sampleDir mergeN mergeA mergeB (by decide) (by decide) (by decide)
      (by decide)).2 "q_chapter_1"⟩

/-- Claim C9: when the synthesis collaborator call fails, `synthesize_response`
returns the factual answer unchanged, byte for byte; synthesis failure is never
a hard failure of the pipeline. -/
theorem synthesis_failure_fallback (synth : String → String → Option String)
    (original_query factual_answer : String)
    (h : synth original_query factual_answer = none) :
    synthesize_response synth original_query factual_answer = factual_answer := by
  simp [synthesize_response, h]

/-- Witness for C9: a collaborator that always fails leaves the factual answer
untouched. -/
theorem synthesis_failure_fallback_witness :
    synthesize_response nullSynth "who is it?" "  the factual answer\n" = "  the factual answer\n" :=
  synthesis_failure_fallback nullSynth "who is it?" "  the factual answer\n" rfl

/-- Claim C10: when parsing yields zero chunks, `load_document` returns `False`
and the stored directory is untouched; the directory is updated (and saved)
exactly when at least one chunk was produced. -/
theorem load_document_zero_chunk_frame (file_stem content : String)
    (stored : List (String × DirEntry)) :
    (parse_markdown_document file_stem content = [] →
      load_document file_stem content stored = (false, stored)) ∧
    (parse_markdown_document file_stem content ≠ [] →
      load_document file_stem content stored =
        (true, pyUpdate stored (dirEntriesOf (parse_markdown_document file_stem content)))) := by
  constructor
  · intro h
    simp [load_document, h]
  · intro h
    have hne : (parse_markdown_document file_stem content).isEmpty = false := by
      cases hp : parse_markdown_document file_stem content with
      | nil => exact absurd hp h
      | cons x xs => simp [List.isEmpty]
    simp [load_document, hne]

/-- Witness for C10: a heading-free document leaves a stored directory
untouched with result `False`; a one-heading document updates it. -/
theorem load_document_zero_chunk_frame_witness :
    load_document "doc" "plain text with no headings" sampleDir = (false, sampleDir) ∧
    load_document "doc" "# A\nb" sampleDir =
      (true, pyUpdate sampleDir (dirEntriesOf (parse_markdown_document "doc" "# A\nb"))) :=
  ⟨(load_document_zero_chunk_frame "doc" "plain text with no headings" sampleDir).1 (by decide),
   (load_document_zero_chunk_frame "doc" "# A\nb" sampleDir).2 (by decide)⟩

theorem chapterFrags_filter_eq_filterMap (pfx : String) (l : List (Nat × String)) :
    (l.filter (fun a => !decide (a.1 = 0) && !decide (pyStrip a.2 = ""))).map
        (fun p => ({ section_id := pfx ++ "_chapter_" ++ toString p.1
                     description := pyStrip (splitFirstLine p.2).1
                     body := pyStrip ("# " ++ pyStrip (splitFirstLine p.2).1 ++ "\n"
                                        ++ ((splitFirstLine p.2).2).getD "") } : Entry)) =
      l.filterMap (fun p =>
        if pyStrip p.2 = "" then none
        else if p.1 = 0 then none
        else some ({ section_id := pfx ++ "_chapter_" ++ toString p.1
                     description := pyStrip (splitFirstLine p.2).1
                     body := pyStrip ("# " ++ pyStrip (splitFirstLine p.2).1 ++ "\n"
                                        ++ ((splitFirstLine p.2).2).getD "") } : Entry)) := by
  induction l with
  | nil => rfl
  | cons a l ih =>
    by_cases h1 : pyStrip a.2 = "" <;> by_cases h2 : a.1 = 0 <;> simp [h1, h2, ih]

/-- Claim C1, corrected: the H1 pass equals the amended description — blank
heading fragments are also discarded (their positional index still counts),
the description is the first fragment line with surrounding whitespace
stripped, and the body is the restored heading line plus the remaining text,
stripped as written — and whenever that pass is non-empty it is the whole
chunker output. -/
theorem chapter_chunks_amended (stem content : String) :
    amended_chapter_chunks (file_prefix_of stem) content =
      parseH1Frags (file_prefix_of stem) (pyMultilineSplit "# " content) ∧
    (amended_chapter_chunks (file_prefix_of stem) content ≠ [] →
      parse_markdown_document stem content =
        amended_chapter_chunks (file_prefix_of stem) content) := by
  have key : amended_chapter_chunks (file_prefix_of stem) content =
      parseH1Frags (file_prefix_of stem) (pyMultilineSplit "# " content) := by
    unfold amended_chapter_chunks
    rw [chapterFrags_filter_eq_filterMap]
    rfl
  refine ⟨key, fun h => ?_⟩
  have hne : (parseH1Frags (file_prefix_of stem) (pyMultilineSplit "# " content)).isEmpty
      = false := by
    cases hp : parseH1Frags (file_prefix_of stem) (pyMultilineSplit "# " content) with
    | nil => exact absurd (key.trans hp) h
    | cons x xs => simp [List.isEmpty]
  unfold parse_markdown_document
  simp only [hne, Bool.false_eq_true, if_false]
  exact key.symm

/-- Counterexample to claim C1 as stated: on the document `"# Alpha \nbody"`
the claim prescribes description `"Alpha "` (the fragment's first line with
the marker removed) and the verbatim body `"# Alpha \nbody"`, but the chunker
strips the heading line and the written body, producing description `"Alpha"`
and body `"# Alpha\nbody"`. -/
theorem chapter_chunks_claim_cex :
    spec_chapter_chunks (file_prefix_of "doc") "# Alpha \nbody" ≠
      parse_markdown_document "doc" "# Alpha \nbody" ∧
    spec_chapter_chunks (file_prefix_of "doc") "# Alpha \nbody" =
      [{ section_id := "doc_chapter_1", description := "Alpha ", body := "# Alpha \nbody" }] ∧
    parse_markdown_document "doc" "# Alpha \nbody" =
      [{ section_id := "doc_chapter_1", description := "Alpha", body := "# Alpha\nbody" }] :=
  ⟨by decide, rfl, rfl⟩

/-- Witness for the amended claim C1, on a document with a discarded blank
heading fragment, a stripped heading line and a nested H2 heading kept
verbatim inside the chunk body. -/
theorem chapter_chunks_amended_witness :
    amended_chapter_chunks (file_prefix_of "doc") "intro\n# \n# Alpha \nbody\n## Sub\nmore" =
      parseH1Frags (file_prefix_of "doc")
        (pyMultilineSplit "# " "intro\n# \n# Alpha \nbody\n## Sub\nmore") ∧
    parse_markdown_document "doc" "intro\n# \n# Alpha \nbody\n## Sub\nmore" =
      amended_chapter_chunks (file_prefix_of "doc") "intro\n# \n# Alpha \nbody\n## Sub\nmore" :=
  ⟨(chapter_chunks_amended "doc" "intro\n# \n# Alpha \nbody\n## Sub\nmore").1,
   (chapter_chunks_amended "doc" "intro\n# \n# Alpha \nbody\n## Sub\nmore").2 (by decide)⟩

theorem keptPairs_cons (f : String) (l : List String) :
    keptPairs (f :: l) =
      if pyStrip f = "" then keptPairs l else h2SecOf f :: keptPairs l := by
  by_cases hf : pyStrip f = "" <;> simp [keptPairs, hf]

theorem splitFragsAux_no_marker (marker : String) (ls : List String)
    (h : ∀ l ∈ ls, strBegins marker l = false) : splitFragsAux marker ls = (ls, []) := by
  induction ls with
  | nil => rfl
  | cons l rest ih =>
    have h1 := h l (List.mem_cons_self _ _)
    have h2 : ∀ x ∈ rest, strBegins marker x = false :=
      fun x hx => h x (List.mem_cons_of_mem _ hx)
    simp [splitFragsAux, h1, ih h2]

theorem parseH1Frags_single (pfx x : String) : parseH1Frags pfx [x] = [] := by
  by_cases h : pyStrip x = "" <;> simp [parseH1Frags, List.enum, List.enumFrom, h]

theorem no_h1_split (content : String) (h : has_h1 content = false) :
    pyMultilineSplit "# " content = [renderLast (linesOf content)] := by
  have hall : ∀ l ∈ linesOf content, strBegins "# " l = false := by
    intro l hl
    by_contra hb
    have : (linesOf content).any (fun x => strBegins "# " x) = true :=
      List.any_eq_true.mpr ⟨l, hl, by simpa using hb⟩
    rw [has_h1] at h
    simp [this] at h
  unfold pyMultilineSplit
  rw [splitFragsAux_no_marker _ _ hall]

theorem parseH2Go_spec_fallback (l : List String) :
    ∀ (pfx : String) (cnt : Nat),
      (parseH2Go pfx cnt [] [] l = spec_fallback_chunks pfx cnt (keptPairs l)) ∧
      ∀ t s, parseH2Go pfx cnt [s] [t] l =
        spec_fallback_chunks pfx cnt ((t, s) :: keptPairs l) := by
  induction l with
  | nil =>
    intro pfx cnt
    constructor
    · rfl
    · intro t s
      simp [parseH2Go, keptPairs, spec_fallback_chunks, finalDescription, spec_group_desc]
  | cons f l ih =>
    intro pfx cnt
    constructor
    · rw [keptPairs_cons]
      by_cases hf : pyStrip f = ""
      · rw [if_pos hf]
        simpa [parseH2Go, hf] using (ih pfx cnt).1
      · rw [if_neg hf]
        have hp := (ih pfx cnt).2 (pyStrip (splitFirstLine f).1)
          ("## " ++ pyStrip (splitFirstLine f).1 ++ "\n" ++ ((splitFirstLine f).2).getD "")
        simpa [parseH2Go, hf, sections_per_chunk, h2SecOf] using hp
    · intro t s
      rw [keptPairs_cons]
      by_cases hf : pyStrip f = ""
      · rw [if_pos hf]
        simpa [parseH2Go, hf] using (ih pfx cnt).2 t s
      · rw [if_neg hf]
        have hrec := (ih pfx (cnt + 1)).1
        simp only [parseH2Go, hf, if_neg hf, h2SecOf]
        simp [sections_per_chunk, spec_fallback_chunks, flushDescription, spec_group_desc,
          hrec]

/-- Claim C2: on a document with zero top-level headings the chunker splits on
second-level headings, groups the retained headings into consecutive batches
of the fixed size 2, numbers each batch `<source_prefix>_group_<n>` with `n`
the running count of chunks produced so far plus one, describes a batch by the
single title, by `"A and B"` for a full batch, or by `"A and others"` for a
final partial batch of more than one title (unreachable at target size 2), and
flushes a trailing partial batch as its own chunk rather than discarding it. -/
theorem fallback_grouping (stem content : String) (h : has_h1 content = false) :
    parse_markdown_document stem content =
      spec_fallback_chunks (file_prefix_of stem) 0
        (keptPairs ((pyMultilineSplit "## " content).drop 1)) := by
  have hempty : parseH1Frags (file_prefix_of stem) (pyMultilineSplit "# " content) = [] := by
    rw [no_h1_split content h]
    exact parseH1Frags_single _ _
  unfold parse_markdown_document
  simp only [hempty, List.isEmpty_nil, if_true]
  exact (parseH2Go_spec_fallback _ _ _).1

/-- Witness for C2: a document with three H2 headings and no H1 heading
produces the two groups `doc_group_1` ("A and B") and `doc_group_2` ("C"). -/
theorem fallback_grouping_witness :
    has_h1 "pre\n## A\na1\n## B\nb1\n## C\nc1" = false ∧
    parse_markdown_document "doc" "pre\n## A\na1\n## B\nb1\n## C\nc1" =
      spec_fallback_chunks (file_prefix_of "doc") 0
        (keptPairs ((pyMultilineSplit "## " "pre\n## A\na1\n## B\nb1\n## C\nc1").drop 1)) ∧
    parse_markdown_document "doc" "pre\n## A\na1\n## B\nb1\n## C\nc1" =
      [{ section_id := "doc_group_1", description := "A and B", body := "## A\na1\n\n\n## B\nb1" },
       { section_id := "doc_group_2", description := "C", body := "## C\nc1" }] :=
  ⟨by decide, fallback_grouping "doc" "pre\n## A\na1\n## B\nb1\n## C\nc1" (by decide), rfl⟩

theorem chunk_file_of_inj (a b : String) (h : chunk_file_of a = chunk_file_of b) : a = b := by
  unfold chunk_file_of at h
  have hd := congrArg String.data h
  simp only [String.data_append] at hd
  have h2 := List.append_cancel_right hd
  have h3 := List.append_cancel_left h2
  exact congrArg String.mk h3

theorem find_desc_of_lookup (dir : List (String × DirEntry)) (id : String) (e : DirEntry)
    (hwf : ∀ p ∈ dir, p.2.chunk_file = chunk_file_of p.1)
    (hl : alook id dir = some e) :
    find_section_desc dir (chunk_file_of id) = e.description := by
  induction dir with
  | nil => simp [alook] at hl
  | cons p rest ih =>
    have hpw := hwf p (List.mem_cons_self _ _)
    have hrw : ∀ q ∈ rest, q.2.chunk_file = chunk_file_of q.1 :=
      fun q hq => hwf q (List.mem_cons_of_mem _ hq)
    by_cases hpk : p.1 = id
    · rw [alook, if_pos hpk] at hl
      have hpe : p.2 = e := by injection hl
      have hbeq : (p.2.chunk_file == chunk_file_of id) = true := by
        rw [hpw, hpk]
        exact beq_self_eq_true _
      unfold find_section_desc
      simp only [List.find?, hbeq]
      rw [hpe]
    · rw [alook, if_neg hpk] at hl
      have hbeq : (p.2.chunk_file == chunk_file_of id) = false := by
        rw [hpw]
        simp only [beq_eq_false_iff_ne, ne_eq]
        intro hcf
        exact hpk (chunk_file_of_inj _ _ hcf)
      unfold find_section_desc at ih ⊢
      simp only [List.find?, hbeq]
      exact ih hrw hl

theorem combineFrom_ordered (fs : List (String × String)) (dir : List (String × DirEntry))
    (desc body : String → String)
    (hwf : ∀ p ∈ dir, p.2.chunk_file = chunk_file_of p.1) :
    ∀ (scope : List String) (i : Nat),
      (∀ id ∈ scope, alook id dir =
        some { description := desc id, chunk_file := chunk_file_of id }) →
      (∀ id ∈ scope, alook (chunk_file_of id) fs = some (body id)) →
      combineFrom fs dir i (scope.map chunk_file_of) = spec_ordered_context desc body i scope := by
  intro scope
  induction scope with
  | nil => intro i _ _; rfl
  | cons id rest ih =>
    intro i hmem hread
    have h1 := hmem id (List.mem_cons_self _ _)
    have h2 := hread id (List.mem_cons_self _ _)
    have hd := find_desc_of_lookup dir id _ hwf h1
    simp only [List.map_cons, combineFrom, h2, hd, spec_ordered_context]
    rw [ih (i + 1) (fun x hx => hmem x (List.mem_cons_of_mem _ hx))
      (fun x hx => hread x (List.mem_cons_of_mem _ hx))]

/-- Claim C3: a validated delegation whose scope has more than one id issues
exactly one combined reference request, whose context lists the chunk bodies
in exactly the order given by `scope` (not directory iteration order), each
preceded by a delimiter line carrying that section's description. -/
theorem ordered_dispatch (dir : List (String × DirEntry)) (fs : List (String × String))
    (agentR : AgentCall → String) (synth : String → String → Option String)
    (q : String) (subq : JVal) (scope : List String) (desc body : String → String)
    (hwf : dirWF dir) (hlen : 1 < scope.length)
    (hmem : ∀ id ∈ scope, alook id dir =
      some { description := desc id, chunk_file := chunk_file_of id })
    (hread : ∀ id ∈ scope, alook (chunk_file_of id) fs = some (body id)) :
    process_decision dir fs agentR synth q
        [("needs_reference", JVal.atom (JAtom.abool true)),
         ("scope", JVal.arr (scope.map JAtom.astr)),
         ("sub_query", subq)] =
      (JVal.atom (JAtom.astr (synthesize_response synth q
         (pyStrip (agentR (AgentCall.multi (spec_ordered_context desc body 1 scope) subq))))),
       [AgentCall.multi (spec_ordered_context desc body 1 scope) subq]) := by
  have hctx : combineFrom fs dir 1 (scope.map chunk_file_of) =
      spec_ordered_context desc body 1 scope :=
    combineFrom_ordered fs dir desc body hwf.2 scope 1 hmem hread
  have hnone : ¬ ∃ x ∈ scope, atomKeyLookup dir (JAtom.astr x) = none := by
    rintro ⟨x, hx, hl⟩
    rw [show atomKeyLookup dir (JAtom.astr x) = alook x dir from rfl, hmem x hx] at hl
    exact Option.noConfusion hl
  have hlen1 : ¬ scope.length = 1 := by omega
  have hfiles2 : List.map ((fun a => ((atomKeyLookup dir a).getD fallbackDirEntry).chunk_file)
      ∘ JAtom.astr) scope = List.map chunk_file_of scope := by
    apply List.map_congr_left
    intro id hid
    simp [atomKeyLookup, hmem id hid]
  unfold process_decision
  simp only [alook, scope_list_of]
  simp [pyTruthy, hnone, hlen1, query_agent_r_multiple, hfiles2, hctx]

/-- Witness for C3, the spec's scenario: scope `["doc_chapter_2",
"doc_chapter_1"]` against a directory listing chapter 1 first produces a
combined context with the Specs header and body before the Overview header and
body. -/
theorem ordered_dispatch_witness :
    process_decision sampleDir sampleFs nullAgentR nullSynth "q"
        [("needs_reference", JVal.atom (JAtom.abool true)),
         ("scope", JVal.arr [JAtom.astr "doc_chapter_2", JAtom.astr "doc_chapter_1"]),
         ("sub_query", JVal.atom (JAtom.astr "sq"))] =
      (JVal.atom (JAtom.astr (synthesize_response nullSynth "q" (pyStrip (nullAgentR
         (AgentCall.multi (spec_ordered_context scenarioDesc scenarioBody 1
            ["doc_chapter_2", "doc_chapter_1"]) (JVal.atom (JAtom.astr "sq"))))))),
       [AgentCall.multi (spec_ordered_context scenarioDesc scenarioBody 1
          ["doc_chapter_2", "doc_chapter_1"]) (JVal.atom (JAtom.astr "sq"))]) ∧
    spec_ordered_context scenarioDesc scenarioBody 1 ["doc_chapter_2", "doc_chapter_1"] =
      "\n--- REFERENCE SECTION 1: Specs ---\n# Specs\nsp body\n"
        ++ "\n--- REFERENCE SECTION 2: Overview ---\n# Overview\nov body\n" :=
  ⟨ordered_dispatch sampleDir sampleFs nullAgentR nullSynth "q" (JVal.atom (JAtom.astr "sq"))
      ["doc_chapter_2", "doc_chapter_1"] scenarioDesc scenarioBody
      (by exact ⟨by decide, by decide⟩) (by decide) (by decide) (by decide), by decide⟩

/-- Claim C6: during multi-chunk dispatch an unreadable chunk contributes only
an inline error marker — the sections before it are assembled unchanged and
the sections after it continue with their section numbers — and the dispatch
itself is still issued as one combined reference request. -/
theorem chunk_read_error_isolated (fs : List (String × String))
    (dir : List (String × DirEntry)) (f : String) (h : alook f fs = none) :
    (∀ (i : Nat) (pre post : List String),
      combineFrom fs dir i (pre ++ f :: post) =
        combineFrom fs dir i pre ++ (("\n--- ERROR: Could not load " ++ f ++ " ---\n")
          ++ combineFrom fs dir (i + pre.length + 1) post)) ∧
    (∀ (agentR : AgentCall → String) (subq : JVal) (chunk_files : List String),
      (query_agent_r_multiple fs agentR dir chunk_files subq).2 =
        [AgentCall.multi (combineFrom fs dir 1 chunk_files) subq]) := by
  constructor
  · intro i pre post
    induction pre generalizing i with
    | nil =>
      simp only [List.nil_append, combineFrom, h]
      rfl
    | cons x pre ih =>
      simp only [List.cons_append, combineFrom, List.append_eq]
      rw [ih (i + 1)]
      have harith : i + 1 + pre.length + 1 = i + (x :: pre).length + 1 := by
        simp [List.length_cons]
        omega
      rw [harith, ← String.append_assoc]
  · intro agentR subq chunk_files
    rfl

/-- Witness for C6: with the middle chunk file unreadable, the combined
context keeps section 1, substitutes the marker, and still assembles section
3; the dispatch is issued. -/
theorem chunk_read_error_isolated_witness :
    combineFrom brokenFs sampleDir 1
        (["chunks/doc_chapter_1.txt"] ++ "chunks/doc_chapter_2.txt"
          :: ["chunks/doc_chapter_3.txt"]) =
      combineFrom brokenFs sampleDir 1 ["chunks/doc_chapter_1.txt"]
        ++ (("\n--- ERROR: Could not load " ++ "chunks/doc_chapter_2.txt" ++ " ---\n")
          ++ combineFrom brokenFs sampleDir 3 ["chunks/doc_chapter_3.txt"]) ∧
    (query_agent_r_multiple brokenFs nullAgentR sampleDir
        ["chunks/doc_chapter_1.txt", "chunks/doc_chapter_2.txt", "chunks/doc_chapter_3.txt"]
        (JVal.atom (JAtom.astr "sq"))).2 =
      [AgentCall.multi (combineFrom brokenFs sampleDir 1
          ["chunks/doc_chapter_1.txt", "chunks/doc_chapter_2.txt", "chunks/doc_chapter_3.txt"])
        (JVal.atom (JAtom.astr "sq"))] :=
  ⟨(chunk_read_error_isolated brokenFs sampleDir "chunks/doc_chapter_2.txt" (by decide)).1
      1 ["chunks/doc_chapter_1.txt"] ["chunks/doc_chapter_3.txt"],
   (chunk_read_error_isolated brokenFs sampleDir "chunks/doc_chapter_2.txt" (by decide)).2
      nullAgentR (JVal.atom (JAtom.astr "sq"))
      ["chunks/doc_chapter_1.txt", "chunks/doc_chapter_2.txt", "chunks/doc_chapter_3.txt"]⟩

/-- Claim C4: a delegation decision whose scope contains at least one id
absent from the directory is rejected with the message naming exactly the
missing ids, and no reference request is issued for that query. -/
theorem unknown_scope_rejected (dir : List (String × DirEntry)) (fs : List (String × String))
    (agentR : AgentCall → String) (synth : String → String → Option String)
    (q : String) (decision : List (String × JVal)) (xs : List JAtom)
    (herr : alook "error" decision = none)
    (hflag : pyTruthy ((alook "needs_reference" decision).getD
      (JVal.atom (JAtom.abool false))) = true)
    (hscope : scope_list_of (alook "scope" decision) = some xs)
    (hmiss : xs.filter (fun a => (atomKeyLookup dir a).isNone) ≠ []) :
    process_decision dir fs agentR synth q decision =
      (JVal.atom (JAtom.astr (missing_scope_reply
        (xs.filter (fun a => (atomKeyLookup dir a).isNone)))), []) := by
  have hie : (xs.filter (fun a => (atomKeyLookup dir a).isNone)).isEmpty = false := by
    cases hm : xs.filter (fun a => (atomKeyLookup dir a).isNone) with
    | nil => exact absurd hm hmiss
    | cons y ys => simp [List.isEmpty]
  unfold process_decision
  rw [herr, hflag, hscope]
  simp [hie]

/-- Witness for C4, the spec's scenario: scope `["doc_chapter_9"]` against the
two-chapter directory is rejected with a message naming `doc_chapter_9`, and
no reference request is issued. -/
theorem unknown_scope_rejected_witness :
    process_decision sampleDir sampleFs nullAgentR nullSynth "q"
        [("needs_reference", JVal.atom (JAtom.abool true)),
         ("scope", JVal.arr [JAtom.astr "doc_chapter_9"]),
         ("sub_query", JVal.atom (JAtom.astr "sq"))] =
      (JVal.atom (JAtom.astr (missing_scope_reply
        ([JAtom.astr "doc_chapter_9"].filter
          (fun a => (atomKeyLookup sampleDir a).isNone)))), []) ∧
    missing_scope_reply [JAtom.astr "doc_chapter_9"] =
      "I wanted to check my reference material for ['doc_chapter_9'], but those sections don't exist in my knowledge base." :=
  ⟨unknown_scope_rejected sampleDir sampleFs nullAgentR nullSynth "q"
      [("needs_reference", JVal.atom (JAtom.abool true)),
       ("scope", JVal.arr [JAtom.astr "doc_chapter_9"]),
       ("sub_query", JVal.atom (JAtom.astr "sq"))]
      [JAtom.astr "doc_chapter_9"] rfl rfl rfl (by decide), by decide⟩

/-- Counterexample to claim C5 as stated: the decision `{"answer": "hi"}`
lacks the boolean `needs_reference` flag, yet the router does not reject it —
it returns the direct answer `"hi"` (which is neither router error reply),
with no dispatch. -/
theorem router_validation_claim_cex :
    process_decision sampleDir sampleFs nullAgentR nullSynth "q"
        [("answer", JVal.atom (JAtom.astr "hi"))] = (JVal.atom (JAtom.astr "hi"), []) ∧
    JVal.atom (JAtom.astr "hi") ≠ JVal.atom (JAtom.astr error_reply) ∧
    JVal.atom (JAtom.astr "hi") ≠ JVal.atom (JAtom.astr scope_format_reply) :=
  ⟨rfl, by decide, by decide⟩

/-- Claim C5, corrected: the router does not confirm the decision's shape — a
missing `needs_reference` flag is treated as false, and the direct-answer
path returns the answer field (or a default apology) without any router
error; when the flag is truthy, `sub_query` is never validated: a missing
`sub_query` is passed through as null and dispatch proceeds; only the scope
field's type is checked. -/
theorem router_validation_amended (dir : List (String × DirEntry))
    (fs : List (String × String)) (agentR : AgentCall → String)
    (synth : String → String → Option String) (q : String)
    (decision : List (String × JVal)) (id : String) (e : DirEntry) (text : String) :
    (alook "error" decision = none → alook "needs_reference" decision = none →
      process_decision dir fs agentR synth q decision =
        ((alook "answer" decision).getD (JVal.atom (JAtom.astr answer_default_reply)), [])) ∧
    (alook id dir = some e → alook e.chunk_file fs = some text →
      process_decision dir fs agentR synth q
          [("needs_reference", JVal.atom (JAtom.abool true)),
           ("scope", JVal.atom (JAtom.astr id))] =
        (JVal.atom (JAtom.astr (synthesize_response synth q (pyStrip (agentR
           (AgentCall.single text (JVal.atom JAtom.anull)))))),
         [AgentCall.single text (JVal.atom JAtom.anull)])) := by
  constructor
  · intro herr hflag
    unfold process_decision
    rw [herr, hflag]
    simp [pyTruthy]
  · intro hmem hread
    unfold process_decision
    simp only [alook]
    simp [pyTruthy, scope_list_of, atomKeyLookup, hmem, query_agent_r_single, hread]

/-- Witness for the amended claim C5: a flag-less decision yields its direct
answer, and a delegation without any `sub_query` still dispatches, with null
as the sub-query. -/
theorem router_validation_amended_witness :
    process_decision sampleDir sampleFs nullAgentR nullSynth "q"
        [("answer", JVal.atom (JAtom.astr "direct"))] =
      (JVal.atom (JAtom.astr "direct"), []) ∧
    process_decision sampleDir sampleFs nullAgentR nullSynth "q"
        [("needs_reference", JVal.atom (JAtom.abool true)),
         ("scope", JVal.atom (JAtom.astr "doc_chapter_1"))] =
      (JVal.atom (JAtom.astr (synthesize_response nullSynth "q" (pyStrip (nullAgentR
         (AgentCall.single "# Overview\nov body" (JVal.atom JAtom.anull)))))),
       [AgentCall.single "# Overview\nov body" (JVal.atom JAtom.anull)]) :=
  ⟨(router_validation_amended sampleDir sampleFs nullAgentR nullSynth "q"
      [("answer", JVal.atom (JAtom.astr "direct"))] "doc_chapter_1"
      { description := "Overview", chunk_file := "chunks/doc_chapter_1.txt" }
      "# Overview\nov body").1 rfl rfl,
   (router_validation_amended sampleDir sampleFs nullAgentR nullSynth "q"
      [("answer", JVal.atom (JAtom.astr "direct"))] "doc_chapter_1"
      { description := "Overview", chunk_file := "chunks/doc_chapter_1.txt" }
      "# Overview\nov body").2 (by decide) (by decide)⟩

theorem alook_writeChunks (es : List Entry) (fs : List (String × String)) (k : String) :
    alook k (writeChunks es fs) = oelse (lastWrite k es) (alook k fs) := by
  induction es generalizing fs with
  | nil => simp [writeChunks, lastWrite, oelse]
  | cons e es ih =>
    show alook k (writeChunks es (fsWrite fs (chunk_file_of e.section_id) e.body)) = _
    rw [ih]
    cases hl : lastWrite k es with
    | some v => simp [lastWrite, hl, oelse]
    | none =>
      simp only [lastWrite, hl, oelse]
      by_cases hp : chunk_file_of e.section_id = k <;> simp [fsWrite, alook, hp, oelse]

/-- Claim C7: re-running the chunker on the same unchanged document and source
is idempotent — the second run assigns the same positional section ids and
descriptions and overwrites the same chunk files with the same bodies, so
both the directory mapping and the chunk store are extensionally unchanged. -/
theorem rechunk_idempotent (file_stem content : String)
    (st : List (String × DirEntry) × List (String × String)) :
    (∀ k, alook k (chunkRun file_stem content (chunkRun file_stem content st)).1 =
       alook k (chunkRun file_stem content st).1) ∧
    (∀ f, alook f (chunkRun file_stem content (chunkRun file_stem content st)).2 =
       alook f (chunkRun file_stem content st).2) := by
  by_cases he : (parse_markdown_document file_stem content).isEmpty
  · constructor
    · intro k
      simp [chunkRun, he]
    · intro f
      simp only [chunkRun, he, if_true]
      rw [alook_writeChunks, alook_writeChunks, oelse_idem]
  · constructor
    · intro k
      simp only [chunkRun, he, Bool.false_eq_true, if_false]
      rw [alook_pyUpdate, alook_pyUpdate, oelse_idem]
    · intro f
      simp only [chunkRun, he, Bool.false_eq_true, if_false]
      rw [alook_writeChunks, alook_writeChunks, oelse_idem]
